import Mathlib

/-!
Verification of the multicall-decoder decoding pipeline.

Shallow embedding of the repository sources:
  - `src/decoder.ts`            (`MulticallDecoder.parseMulticallData`, `MulticallDecoder.decodeCall`)
  - `src/etherscan-client.ts`   (`EtherscanClient`: ABI cache, name cache, `throttle`)
  - `src/signature-decoder.ts`  (`SignatureDecoder.lookupSelector` with selector normalization)
  - `src/types.ts`              (`MulticallCall`, `DecodedCall`)

The library viem (`decodeFunctionData`, `parseAbiItem`) and the two HTTP
services are external collaborators of the repository, not part of its code.
They are modelled as explicit function parameters (oracles): a successful
structural decode is `some` and a thrown decode error is `none`, mirroring the
try/catch structure of the TypeScript. Network requests that the clients catch
and collapse (Etherscan transport errors become `null`, 4byte errors become
`[]`) are likewise modelled by `none` results of the network oracles. Strings
model the JavaScript hex strings; `String.take 10` models `s.slice(0, 10)` and
`String.drop 10` models `s.slice(10)`.
-/

namespace MD

/-- Decoded ABI values (the value space of the spec entry DecodedValue). The
decoder passes them through opaquely, so the claims never inspect them. -/
inductive Value where
  | uint (n : Nat)
  | int (i : Int)
  | address (a : String)
  | boolean (b : Bool)
  | bytes (s : String)
  | str (s : String)
  | arr (vs : List Value)

/-- Interface `MulticallCall` from `src/types.ts`. -/
structure MulticallCall where
  target : String
  callData : String
deriving DecidableEq, Repr

/-- Interface `DecodedCall` from `src/types.ts`. -/
structure DecodedCall where
  target : String
  functionName : String
  functionSignature : String
  args : List Value
  rawCallData : String

/-- One element of the tuple array of the aggregate3 envelope:
`(address target, bool allowFailure, bytes callData)`. -/
structure Agg3Call where
  target : String
  allowFailure : Bool
  callData : String

/-- One element of the pair arrays of the aggregate, tryAggregate and
tryBlockAndAggregate envelopes: `(address target, bytes callData)`. -/
structure PairCall where
  target : String
  callData : String

/-- The four envelope shapes probed by `parseMulticallData`, in source order. -/
inductive EnvelopeShape where
  | aggregate3
  | aggregate
  | tryAggregate
  | tryBlockAndAggregate
deriving DecidableEq, Repr

/-- Error raised by `parseMulticallData` when no shape matches
(`throw new Error` with the unable-to-parse unknown-format message). -/
inductive ParseError where
  | UnrecognizedEnvelope
deriving DecidableEq, Repr

/-- Oracle for the external viem `decodeFunctionData` applied to each of the
four one-function ABIs built in `parseMulticallData`. `some` is a successful
strict structural decode carrying the decoded arguments; `none` is a thrown
decode error (wrong selector, wrong arity, wrong types), which the source
catches and suppresses. For tryAggregate and tryBlockAndAggregate the decoded
arguments are `(requireSuccess, calls)`; the source reads `decoded.args[1]`. -/
structure EnvelopeDecoder where
  aggregate3 : String → Option (List Agg3Call)
  aggregate : String → Option (List PairCall)
  tryAggregate : String → Option (Bool × List PairCall)
  tryBlockAndAggregate : String → Option (Bool × List PairCall)

/-- Method `MulticallDecoder.parseMulticallData` (src/decoder.ts lines 33-142),
instrumented with the list of shapes probed, in order. Each probe pushes
`{target, callData}` for every element of the calls array and returns
immediately on success; each failure advances to the next shape; after the
last failure the source throws the unknown-format error (re-thrown unchanged
by the outer catch). -/
def parseMulticallDataProbes (d : EnvelopeDecoder) (data : String) :
    Except ParseError (List MulticallCall) × List EnvelopeShape :=
  match d.aggregate3 data with
  | some cs =>
      (.ok (cs.map fun c => { target := c.target, callData := c.callData }),
       [.aggregate3])
  | none =>
    match d.aggregate data with
    | some cs =>
        (.ok (cs.map fun c => { target := c.target, callData := c.callData }),
         [.aggregate3, .aggregate])
    | none =>
      match d.tryAggregate data with
      | some (_, cs) =>
          (.ok (cs.map fun c => { target := c.target, callData := c.callData }),
           [.aggregate3, .aggregate, .tryAggregate])
      | none =>
        match d.tryBlockAndAggregate data with
        | some (_, cs) =>
            (.ok (cs.map fun c => { target := c.target, callData := c.callData }),
             [.aggregate3, .aggregate, .tryAggregate, .tryBlockAndAggregate])
        | none =>
            (.error .UnrecognizedEnvelope,
             [.aggregate3, .aggregate, .tryAggregate, .tryBlockAndAggregate])

/-- Method `MulticallDecoder.parseMulticallData`: the returned call list (or error). -/
def parseMulticallData (d : EnvelopeDecoder) (data : String) :
    Except ParseError (List MulticallCall) :=
  (parseMulticallDataProbes d data).1

/-- JavaScript `String.prototype.toLowerCase` on the hex strings used by the
sources (addresses, selectors): lowercase every character. -/
def toLowerCase (s : String) : String :=
  ⟨s.data.map Char.toLower⟩

/-- One entry of `inputs` of an ABI function item (viem Abi JSON). Only the
field read by the source (`input.type`) is modelled. -/
structure AbiParam where
  type : String
deriving DecidableEq, Repr

/-- One item of a viem `Abi` array. The source reads `item.type`, `item.name`
and `item.inputs`; `inputs` may be absent in JSON, hence `Option` (an item
with `inputs: []` is truthy in JavaScript, while an absent `inputs` is falsy). -/
structure AbiItem where
  type : String
  name : String
  inputs : Option (List AbiParam)
deriving DecidableEq, Repr

/-- A viem `Abi`: an array of items. -/
abbrev Abi := List AbiItem

/-- Interface `FunctionSignature` from `src/signature-decoder.ts`. -/
structure FunctionSignature where
  name : String
  signature : String
deriving DecidableEq, Repr

/-- The signature string built in `decodeCall` (src/decoder.ts lines 160-168):
start from the decoded function name; if `abi.find` locates a function item of
that name and it has an `inputs` field, append the comma-joined declared input
types in parentheses. -/
def buildSignature (abi : Abi) (fnName : String) : String :=
  match abi.find? (fun item => item.type == "function" && item.name == fnName) with
  | some frag =>
    match frag.inputs with
    | some inputs =>
        fnName ++ "(" ++ String.intercalate "," (inputs.map (fun input => input.type)) ++ ")"
    | none => fnName
  | none => fnName

/-- The `for (const sig of signatures)` loop of `decodeCall` (src/decoder.ts
lines 196-216): try each candidate in order with
`decodeFunctionData([parseAbiItem(...)], callData)` and stop at the first
success; `none` when every candidate throws (including `parseAbiItem` throws,
caught by the same try/catch). `decodeSig sig.signature callData` is the
oracle for that external trial decode, `some vs` carrying
`decoded.args || []`. -/
def firstDecodable (decodeSig : String → String → Option (List Value))
    (callData : String) : List FunctionSignature → Option (FunctionSignature × List Value)
  | [] => none
  | s :: rest =>
    match decodeSig s.signature callData with
    | some vs => some (s, vs)
    | none => firstDecodable decodeSig callData rest

/-- The 4byte-directory fallback of `decodeCall` (src/decoder.ts lines
182-225), given the candidate list the directory returned: zero candidates
yield the unknown result whose single argument is `callData.slice(10)`; else
the first candidate that trial-decodes wins; else the first candidate is
returned with the single raw argument. -/
def fallbackResult (decodeSig : String → String → Option (List Value))
    (target callData selector : String) (signatures : List FunctionSignature) : DecodedCall :=
  match signatures with
  | [] =>
      { target := target
        functionName := "unknown"
        functionSignature := selector
        args := [Value.bytes (callData.drop 10)]
        rawCallData := callData }
  | first :: _ =>
    match firstDecodable decodeSig callData signatures with
    | some (sig, vs) =>
        { target := target
          functionName := sig.name
          functionSignature := sig.signature
          args := vs
          rawCallData := callData }
    | none =>
        { target := target
          functionName := first.name
          functionSignature := first.signature
          args := [Value.bytes (callData.drop 10)]
          rawCallData := callData }

/-- Method `MulticallDecoder.decodeCall` (src/decoder.ts lines 147-226), with the
collaborators as oracles: `getAbi` is `etherscanClient.getContractAbi` (its
returned value for `target`), `decodeAbi` is the viem decode of `callData`
against a whole ABI (`some (functionName, args)` on success, args modelling
`decoded.args` with viem undefined as `[]`), `decodeSig` the per-candidate
trial decode, and `lookup` is `signatureDecoder.lookupSelector`. The selector
is `callData.slice(0, 10)`. -/
def decodeCall (getAbi : String → Option Abi)
    (decodeAbi : Abi → String → Option (String × List Value))
    (decodeSig : String → String → Option (List Value))
    (lookup : String → List FunctionSignature)
    (target callData : String) : DecodedCall :=
  let selector := callData.take 10
  match getAbi target with
  | some abi =>
    match decodeAbi abi callData with
    | some (fnName, args) =>
        { target := target
          functionName := fnName
          functionSignature := buildSignature abi fnName
          args := args
          rawCallData := callData }
    | none => fallbackResult decodeSig target callData selector (lookup selector)
  | none => fallbackResult decodeSig target callData selector (lookup selector)

/-- Selector normalization in `SignatureDecoder.lookupSelector`
(src/signature-decoder.ts lines 21-24): lowercase, then ensure a `0x` front
marker. -/
def normalizeSelector (selector : String) : String :=
  let lower := toLowerCase selector
  if lower.data.take 2 == ['0', 'x'] then lower else "0x" ++ lower

/-- State of one `SignatureDecoder` instance: its selector cache
(`Map<string, FunctionSignature[]>`), as an association list with JavaScript
Map lookup semantics (only lookups and fresh-key inserts occur). -/
structure SignatureDecoderState where
  cache : List (String × List FunctionSignature)
deriving DecidableEq, Repr

/-- Method `SignatureDecoder.lookupSelector` (src/signature-decoder.ts lines 20-54).
`net` is the 4byte HTTP oracle for the normalized selector: `some sigs` when
the response carries `results` (mapped to name/signature pairs and cached),
`none` when the response lacks `results` or the request throws (both return
`[]` and cache nothing). The third component counts outbound HTTP requests
(one on every cache miss). -/
def lookupSelector (net : String → Option (List FunctionSignature))
    (s : SignatureDecoderState) (selector : String) :
    List FunctionSignature × SignatureDecoderState × Nat :=
  let n := normalizeSelector selector
  match s.cache.lookup n with
  | some sigs => (sigs, s, 0)
  | none =>
    match net n with
    | some sigs => (sigs, ⟨(n, sigs) :: s.cache⟩, 1)
    | none => ([], s, 1)

/-- State of one `EtherscanClient` instance: the ABI cache and name cache
(JavaScript Maps), plus the throttle fields `lastRequestTime` and
`minRequestInterval` (milliseconds, wall-clock). -/
structure EtherscanState where
  cache : List (String × Abi)
  nameCache : List (String × String)
  lastRequestTime : Nat
  minRequestInterval : Nat
deriving DecidableEq, Repr

/-- The `EtherscanClient` constructor (src/etherscan-client.ts lines 31-47):
empty caches, `lastRequestTime = 0`, and `minRequestInterval` of 250ms when an
API key is configured, 1000ms otherwise. -/
def etherscanInit (hasApiKey : Bool) : EtherscanState :=
  { cache := []
    nameCache := []
    lastRequestTime := 0
    minRequestInterval := if hasApiKey then 250 else 1000 }

/-- Method `EtherscanClient.throttle` (src/etherscan-client.ts lines 59-72), in
explicit wall-clock time: called at time `now` with stored `last` and
`interval`, it sleeps until `last + interval` when the elapsed time is
shorter than the interval, and returns the time at which `lastRequestTime` is
re-stamped and the subsequent request is issued. Nat subtraction matches the
source under the monotone-clock hypothesis `last ≤ now`. -/
def throttle (last interval now : Nat) : Nat :=
  if now - last < interval then now + (interval - (now - last)) else now

/-- Method `EtherscanClient.getContractAbi` (src/etherscan-client.ts lines 107-145),
request-counting view. `net` is the HTTP oracle for the normalized (lowercase)
address: `some abi` when the response has status 1 and a parseable result
(cached), `none` when the contract is unverified or the request throws (not
cached). The third component counts outbound HTTP requests. Note: this method
issues its request without calling `throttle`. -/
def getContractAbi (net : String → Option Abi) (s : EtherscanState)
    (address : String) : Option Abi × EtherscanState × Nat :=
  let a := toLowerCase address
  match s.cache.lookup a with
  | some abi => (some abi, s, 0)
  | none =>
    match net a with
    | some abi => (some abi, { s with cache := (a, abi) :: s.cache }, 1)
    | none => (none, s, 1)

/-- Method `EtherscanClient.getContractAbi`, timed view: called at wall-clock time
`now`, it returns the fetched ABI, the new state, and the list of times at
which outbound requests were issued. The source contains no `throttle` call
on this path, so a cache miss issues its request at `now` and leaves
`lastRequestTime` untouched. -/
def getContractAbiT (net : String → Option Abi) (s : EtherscanState)
    (address : String) (now : Nat) : Option Abi × EtherscanState × List Nat :=
  let a := toLowerCase address
  match s.cache.lookup a with
  | some abi => (some abi, s, [])
  | none =>
    match net a with
    | some abi => (some abi, { s with cache := (a, abi) :: s.cache }, [now])
    | none => (none, s, [now])

/-- Method `EtherscanClient.getContractName` (src/etherscan-client.ts lines 160-229),
timed view. `netName` is the HTTP oracle for the normalized address: `some
name` when the response carries a non-empty ContractName (cached), `none` for
every other outcome (returns the Unknown Contract marker, uncached). On a
cache miss the method awaits `throttle` and then issues its request, so the
request time is `throttle s.lastRequestTime s.minRequestInterval now`, which
is also stamped into `lastRequestTime`. -/
def getContractNameT (netName : String → Option String) (s : EtherscanState)
    (address : String) (now : Nat) : String × EtherscanState × List Nat :=
  let a := toLowerCase address
  match s.nameCache.lookup a with
  | some n => (n, s, [])
  | none =>
    let t := throttle s.lastRequestTime s.minRequestInterval now
    match netName a with
    | some n => (n, { s with nameCache := (a, n) :: s.nameCache, lastRequestTime := t }, [t])
    | none => ("Unknown Contract", { s with lastRequestTime := t }, [t])

/-- State of one `MulticallDecoder` instance: its `EtherscanClient` and its
`SignatureDecoder` (src/decoder.ts lines 20-27). -/
structure DecoderState where
  etherscan : EtherscanState
  sigs : SignatureDecoderState
deriving DecidableEq, Repr

/-- The `MulticallDecoder` constructor: fresh clients with empty caches. -/
def decoderInit (hasApiKey : Bool) : DecoderState :=
  { etherscan := etherscanInit hasApiKey, sigs := ⟨[]⟩ }

/-- Method `MulticallDecoder.decodeCall` with the stateful gateway clients
(src/decoder.ts lines 147-226 together with the client methods above):
returns the `DecodedCall`, the decoder state after the call, and the number
of outbound gateway requests issued. -/
def decodeCallM (netAbi : String → Option Abi)
    (netSig : String → Option (List FunctionSignature))
    (decodeAbi : Abi → String → Option (String × List Value))
    (decodeSig : String → String → Option (List Value))
    (s : DecoderState) (target callData : String) :
    DecodedCall × DecoderState × Nat :=
  let selector := callData.take 10
  let ra := getContractAbi netAbi s.etherscan target
  match ra.1 with
  | some abi =>
    match decodeAbi abi callData with
    | some (fnName, args) =>
        ({ target := target
           functionName := fnName
           functionSignature := buildSignature abi fnName
           args := args
           rawCallData := callData },
         { etherscan := ra.2.1, sigs := s.sigs }, ra.2.2)
    | none =>
      let rs := lookupSelector netSig s.sigs selector
      (fallbackResult decodeSig target callData selector rs.1,
       { etherscan := ra.2.1, sigs := rs.2.1 }, ra.2.2 + rs.2.2)
  | none =>
    let rs := lookupSelector netSig s.sigs selector
    (fallbackResult decodeSig target callData selector rs.1,
     { etherscan := ra.2.1, sigs := rs.2.1 }, ra.2.2 + rs.2.2)

/-- Envelope decoder oracle for concrete examples: only the aggregate3 probe
succeeds. -/
def c1Dec : EnvelopeDecoder :=
  { aggregate3 := fun _ => some [{ target := "0xT", allowFailure := true, callData := "0xCD" }]
    aggregate := fun _ => none
    tryAggregate := fun _ => none
    tryBlockAndAggregate := fun _ => none }

/-- Envelope decoder oracle for concrete examples: every probe fails. -/
def c1DecFail : EnvelopeDecoder :=
  { aggregate3 := fun _ => none
    aggregate := fun _ => none
    tryAggregate := fun _ => none
    tryBlockAndAggregate := fun _ => none }

/-- Registry oracle returning no interface for any address (unverified
contract, or transport error collapsed to null by the client). -/
def cNone : String → Option Abi := fun _ => none

/-- Directory oracle returning zero candidates for any selector (no results,
or transport error collapsed to the empty list by the client). -/
def cEmptyLookup : String → List FunctionSignature := fun _ => []

/-- Whole-ABI decode oracle on which every structural decode throws. -/
def cNoDecodeA : Abi → String → Option (String × List Value) := fun _ _ => none

/-- Candidate-signature decode oracle on which every structural decode
throws. -/
def cNoDecodeS : String → String → Option (List Value) := fun _ _ => none

/-- ABI function item `f(uint256,address)` for concrete examples. -/
def c4Item : AbiItem :=
  { type := "function", name := "f"
    inputs := some [{ type := "uint256" }, { type := "address" }] }

/-- One-function interface containing `f(uint256,address)`. -/
def c4Abi : Abi := [c4Item]

/-- Registry oracle returning the `f(uint256,address)` interface. -/
def c4GetAbi : String → Option Abi := fun _ => some c4Abi

/-- Whole-ABI decode oracle decoding every payload as `f` with two values. -/
def c4DecodeAbi : Abi → String → Option (String × List Value) :=
  fun _ _ => some ("f", [Value.uint 1, Value.address "0xA"])

/-- Two directory candidates sharing a selector, for concrete examples. -/
def c5Sigs : List FunctionSignature :=
  [{ name := "transfer", signature := "transfer(address,uint256)" },
   { name := "other", signature := "other(bytes)" }]

/-- Directory oracle returning the two candidates above for any selector. -/
def c5Lookup : String → List FunctionSignature := fun _ => c5Sigs

/-- Interface used by the caching example. -/
def c8Abi : Abi := [{ type := "function", name := "g", inputs := some [] }]

/-- Network oracle for the Etherscan ABI endpoint used by the caching
example. -/
def c8NetAbi : String → Option Abi := fun _ => some c8Abi

/-- Directory candidate list used by the caching example. -/
def c8SigList : List FunctionSignature := [{ name := "g", signature := "g()" }]

/-- Network oracle for the 4byte endpoint used by the caching example. -/
def c8NetSig : String → Option (List FunctionSignature) := fun _ => some c8SigList

/-- Name-endpoint oracle used by the pacing example. -/
def c9NetName : String → Option String := fun _ => some "Token"

/-- ABI-endpoint oracle used by the pacing example. -/
def c9NetAbi : String → Option Abi := fun _ => some []

/-- An `EtherscanClient` whose last outbound request was stamped at 100ms and
whose interval is the with-API-key 250ms. -/
def c9State : EtherscanState :=
  { cache := [], nameCache := [], lastRequestTime := 100, minRequestInterval := 250 }

/-- Claim C1: `parseMulticallData` probes the four envelope shapes in the
fixed order aggregate3, aggregate, tryAggregate, tryBlockAndAggregate; on the
first shape whose strict structural decode succeeds it returns exactly the
(target, callData) pairs of the calls array in encoding order (ignoring the
allowFailure flags, the requireSuccess flag and block context), with count
equal to the batch length, without attempting later shapes (the probe trace
stops at the successful shape); and it fails with UnrecognizedEnvelope if and
only if all four probes fail. -/
theorem parseMulticallData_probe_spec (d : EnvelopeDecoder) (data : String) :
    (∀ cs, d.aggregate3 data = some cs →
      parseMulticallData d data =
          .ok (cs.map fun c => { target := c.target, callData := c.callData }) ∧
      (parseMulticallDataProbes d data).2 = [.aggregate3] ∧
      (cs.map fun c => ({ target := c.target, callData := c.callData } : MulticallCall)).length
        = cs.length) ∧
    (d.aggregate3 data = none → ∀ cs, d.aggregate data = some cs →
      parseMulticallData d data =
          .ok (cs.map fun c => { target := c.target, callData := c.callData }) ∧
      (parseMulticallDataProbes d data).2 = [.aggregate3, .aggregate] ∧
      (cs.map fun c => ({ target := c.target, callData := c.callData } : MulticallCall)).length
        = cs.length) ∧
    (d.aggregate3 data = none → d.aggregate data = none →
      ∀ b cs, d.tryAggregate data = some (b, cs) →
      parseMulticallData d data =
          .ok (cs.map fun c => { target := c.target, callData := c.callData }) ∧
      (parseMulticallDataProbes d data).2 = [.aggregate3, .aggregate, .tryAggregate] ∧
      (cs.map fun c => ({ target := c.target, callData := c.callData } : MulticallCall)).length
        = cs.length) ∧
    (d.aggregate3 data = none → d.aggregate data = none → d.tryAggregate data = none →
      ∀ b cs, d.tryBlockAndAggregate data = some (b, cs) →
      parseMulticallData d data =
          .ok (cs.map fun c => { target := c.target, callData := c.callData }) ∧
      (parseMulticallDataProbes d data).2
          = [.aggregate3, .aggregate, .tryAggregate, .tryBlockAndAggregate] ∧
      (cs.map fun c => ({ target := c.target, callData := c.callData } : MulticallCall)).length
        = cs.length) ∧
    (parseMulticallData d data = .error .UnrecognizedEnvelope ↔
      d.aggregate3 data = none ∧ d.aggregate data = none ∧
      d.tryAggregate data = none ∧ d.tryBlockAndAggregate data = none) := by
  refine ⟨fun cs h1 => ?_, fun h1 cs h2 => ?_, fun h1 h2 b cs h3 => ?_,
    fun h1 h2 h3 b cs h4 => ?_, ?_⟩
  · simp [parseMulticallData, parseMulticallDataProbes, h1]
  · simp [parseMulticallData, parseMulticallDataProbes, h1, h2]
  · simp [parseMulticallData, parseMulticallDataProbes, h1, h2, h3]
  · simp [parseMulticallData, parseMulticallDataProbes, h1, h2, h3, h4]
  · constructor
    · intro h
      cases h1 : d.aggregate3 data <;> cases h2 : d.aggregate data <;>
        cases h3 : d.tryAggregate data <;> cases h4 : d.tryBlockAndAggregate data <;>
        simp_all [parseMulticallData, parseMulticallDataProbes]
    · rintro ⟨h1, h2, h3, h4⟩
      simp [parseMulticallData, parseMulticallDataProbes, h1, h2, h3, h4]

/-- Witness for C1: a payload whose aggregate3 probe succeeds yields exactly
its (target, callData) pair, and a payload failing all four probes yields
UnrecognizedEnvelope. -/
theorem parseMulticallData_probe_spec_witness :
    parseMulticallData c1Dec "0x01" = .ok [{ target := "0xT", callData := "0xCD" }] ∧
    parseMulticallData c1DecFail "0x01" = .error .UnrecognizedEnvelope := by
  constructor
  · exact ((parseMulticallData_probe_spec c1Dec "0x01").1 _ rfl).1
  · exact ((parseMulticallData_probe_spec c1DecFail "0x01").2.2.2.2).mpr ⟨rfl, rfl, rfl, rfl⟩

lemma fallbackResult_target (dS : String → String → Option (List Value))
    (t cd sel : String) (l : List FunctionSignature) :
    (fallbackResult dS t cd sel l).target = t := by
  unfold fallbackResult
  cases l with
  | nil => rfl
  | cons a l' =>
    cases h : firstDecodable dS cd (a :: l') with
    | some p => cases p with | mk sg vs => simp [h]
    | none => simp [h]

lemma fallbackResult_rawCallData (dS : String → String → Option (List Value))
    (t cd sel : String) (l : List FunctionSignature) :
    (fallbackResult dS t cd sel l).rawCallData = cd := by
  unfold fallbackResult
  cases l with
  | nil => rfl
  | cons a l' =>
    cases h : firstDecodable dS cd (a :: l') with
    | some p => cases p with | mk sg vs => simp [h]
    | none => simp [h]

lemma fallbackResult_args_none (dS : String → String → Option (List Value))
    (t cd sel : String) (l : List FunctionSignature)
    (h : firstDecodable dS cd l = none) :
    (fallbackResult dS t cd sel l).args = [Value.bytes (cd.drop 10)] := by
  unfold fallbackResult
  cases l with
  | nil => rfl
  | cons a l' => simp [h]

lemma fallbackResult_args_some (dS : String → String → Option (List Value))
    (t cd sel : String) (l : List FunctionSignature) (sg : FunctionSignature)
    (vs : List Value) (h : firstDecodable dS cd l = some (sg, vs)) :
    (fallbackResult dS t cd sel l).args = vs := by
  unfold fallbackResult
  cases l with
  | nil => simp [firstDecodable] at h
  | cons a l' => simp [h]

lemma firstDecodable_eq_none (dS : String → String → Option (List Value))
    (cd : String) (l : List FunctionSignature) :
    firstDecodable dS cd l = none ↔ ∀ sg ∈ l, dS sg.signature cd = none := by
  induction l with
  | nil => simp [firstDecodable]
  | cons a l' ih =>
    cases h : dS a.signature cd with
    | none => simp [firstDecodable, h, ih]
    | some vs => simp [firstDecodable, h]

lemma decodeCall_target_raw (gA : String → Option Abi)
    (dA : Abi → String → Option (String × List Value))
    (dS : String → String → Option (List Value))
    (lk : String → List FunctionSignature) (t cd : String) :
    (decodeCall gA dA dS lk t cd).target = t ∧
    (decodeCall gA dA dS lk t cd).rawCallData = cd := by
  cases hg : gA t with
  | none => simp [decodeCall, hg, fallbackResult_target, fallbackResult_rawCallData]
  | some abi =>
    cases hd : dA abi cd with
    | none => simp [decodeCall, hg, hd, fallbackResult_target, fallbackResult_rawCallData]
    | some p => cases p with | mk fn args => simp [decodeCall, hg, hd]

lemma decodeCallM_target_raw (netAbi : String → Option Abi)
    (netSig : String → Option (List FunctionSignature))
    (dA : Abi → String → Option (String × List Value))
    (dS : String → String → Option (List Value))
    (s : DecoderState) (t cd : String) :
    (decodeCallM netAbi netSig dA dS s t cd).1.target = t ∧
    (decodeCallM netAbi netSig dA dS s t cd).1.rawCallData = cd := by
  cases hg : (getContractAbi netAbi s.etherscan t).1 with
  | none => simp [decodeCallM, hg, fallbackResult_target, fallbackResult_rawCallData]
  | some abi =>
    cases hd : dA abi cd with
    | none => simp [decodeCallM, hg, hd, fallbackResult_target, fallbackResult_rawCallData]
    | some p => cases p with | mk fn args => simp [decodeCallM, hg, hd]

/-- Claim C10: on every return path of `decodeCall`, for every target and
callData, the returned DecodedCall carries the input target in its `target`
field and the input callData in its `rawCallData` field, unchanged — both for
the oracle view and for the stateful view with the caching clients. -/
theorem decodeCall_frame (gA : String → Option Abi)
    (dA : Abi → String → Option (String × List Value))
    (dS : String → String → Option (List Value))
    (lk : String → List FunctionSignature)
    (netAbi : String → Option Abi)
    (netSig : String → Option (List FunctionSignature))
    (s : DecoderState) (t cd : String) :
    (decodeCall gA dA dS lk t cd).target = t ∧
    (decodeCall gA dA dS lk t cd).rawCallData = cd ∧
    (decodeCallM netAbi netSig dA dS s t cd).1.target = t ∧
    (decodeCallM netAbi netSig dA dS s t cd).1.rawCallData = cd :=
  ⟨(decodeCall_target_raw gA dA dS lk t cd).1,
   (decodeCall_target_raw gA dA dS lk t cd).2,
   (decodeCallM_target_raw netAbi netSig dA dS s t cd).1,
   (decodeCallM_target_raw netAbi netSig dA dS s t cd).2⟩

/-- Claim C3: `decodeCall` is total — for every oracle behavior it returns a
DecodedCall value built around the input target and callData (failure would be
an `Except`/`Option` in this embedding, and the result type is plain
`DecodedCall`); in particular, when the registry yields nothing and the
directory yields zero candidates (the collapsed outcome of both gateways
erroring out), it degrades to the unknown result, and the same holds for the
stateful client pipeline started from a fresh decoder whose network calls all
fail. -/
theorem decodeCall_never_fails (gA : String → Option Abi)
    (dA : Abi → String → Option (String × List Value))
    (dS : String → String → Option (List Value))
    (lk : String → List FunctionSignature) (hasApiKey : Bool) (t cd : String) :
    (∃ fn sig args, decodeCall gA dA dS lk t cd =
      { target := t, functionName := fn, functionSignature := sig,
        args := args, rawCallData := cd }) ∧
    decodeCall cNone dA dS cEmptyLookup t cd =
      { target := t, functionName := "unknown", functionSignature := cd.take 10,
        args := [Value.bytes (cd.drop 10)], rawCallData := cd } ∧
    (decodeCallM cNone (fun _ => none) dA dS (decoderInit hasApiKey) t cd).1 =
      { target := t, functionName := "unknown", functionSignature := cd.take 10,
        args := [Value.bytes (cd.drop 10)], rawCallData := cd } := by
  refine ⟨?_, rfl, rfl⟩
  obtain ⟨h1, h2⟩ := decodeCall_target_raw gA dA dS lk t cd
  refine ⟨(decodeCall gA dA dS lk t cd).functionName,
    (decodeCall gA dA dS lk t cd).functionSignature,
    (decodeCall gA dA dS lk t cd).args, ?_⟩
  have he : decodeCall gA dA dS lk t cd =
      { target := (decodeCall gA dA dS lk t cd).target,
        functionName := (decodeCall gA dA dS lk t cd).functionName,
        functionSignature := (decodeCall gA dA dS lk t cd).functionSignature,
        args := (decodeCall gA dA dS lk t cd).args,
        rawCallData := (decodeCall gA dA dS lk t cd).rawCallData } := rfl
  rw [h1, h2] at he
  exact he

/-- Claim C4: if the registry returns an interface and the callData
structurally decodes against it, `decodeCall` returns the decoded function
name, the canonical signature built from the declared
input types (not from the decoded values), and the decoded values as args. -/
theorem decodeCall_registry_hit (gA : String → Option Abi)
    (dA : Abi → String → Option (String × List Value))
    (dS : String → String → Option (List Value))
    (lk : String → List FunctionSignature) (t cd : String) (abi : Abi)
    (fnName : String) (args : List Value) (frag : AbiItem) (inputs : List AbiParam)
    (hA : gA t = some abi)
    (hD : dA abi cd = some (fnName, args))
    (hF : abi.find? (fun item => item.type == "function" && item.name == fnName) = some frag)
    (hI : frag.inputs = some inputs) :
    decodeCall gA dA dS lk t cd =
      { target := t
        functionName := fnName
        functionSignature :=
          fnName ++ "(" ++ String.intercalate "," (inputs.map fun input => input.type) ++ ")"
        args := args
        rawCallData := cd } := by
  simp [decodeCall, hA, hD, buildSignature, hF, hI]

/-- Witness for C4: an interface containing `f(uint256,address)` whose decode
succeeds yields functionName f, functionSignature f(uint256,address) and two
args. -/
theorem decodeCall_registry_hit_witness :
    decodeCall c4GetAbi c4DecodeAbi cNoDecodeS cEmptyLookup "0xC" "0xdeadbeef" =
      { target := "0xC", functionName := "f", functionSignature := "f(uint256,address)",
        args := [Value.uint 1, Value.address "0xA"], rawCallData := "0xdeadbeef" } ∧
    [Value.uint 1, Value.address "0xA"].length = 2 :=
  ⟨decodeCall_registry_hit c4GetAbi c4DecodeAbi cNoDecodeS cEmptyLookup "0xC" "0xdeadbeef"
      c4Abi "f" [Value.uint 1, Value.address "0xA"] c4Item
      [{ type := "uint256" }, { type := "address" }] rfl rfl rfl rfl,
   rfl⟩

/-- Claim C5: when the registry path produces no decode and the directory
returns one or more candidates none of which structurally decodes the
callData, `decodeCall` returns the name and signature of the first candidate with
args equal to the single-element list holding callData without its first 4
bytes. -/
theorem decodeCall_all_candidates_fail (gA : String → Option Abi)
    (dA : Abi → String → Option (String × List Value))
    (dS : String → String → Option (List Value))
    (lk : String → List FunctionSignature) (t cd : String)
    (first : FunctionSignature) (rest : List FunctionSignature)
    (hMiss : ∀ abi, gA t = some abi → dA abi cd = none)
    (hLk : lk (cd.take 10) = first :: rest)
    (hFail : ∀ sg ∈ first :: rest, dS sg.signature cd = none) :
    decodeCall gA dA dS lk t cd =
      { target := t, functionName := first.name, functionSignature := first.signature,
        args := [Value.bytes (cd.drop 10)], rawCallData := cd } := by
  have hnone : firstDecodable dS cd (first :: rest) = none :=
    (firstDecodable_eq_none dS cd (first :: rest)).mpr hFail
  cases hg : gA t with
  | none => simp [decodeCall, hg, hLk, fallbackResult, hnone]
  | some abi => simp [decodeCall, hg, hMiss abi hg, hLk, fallbackResult, hnone]

/-- Witness for C5: registry empty, two candidates, both trial decodes fail:
the first candidate wins and the single arg is the callData tail. -/
theorem decodeCall_all_candidates_fail_witness :
    decodeCall cNone cNoDecodeA cNoDecodeS c5Lookup "0xD" "0xa9059cbb0001" =
      { target := "0xD", functionName := "transfer",
        functionSignature := "transfer(address,uint256)",
        args := [Value.bytes "0001"], rawCallData := "0xa9059cbb0001" } :=
  decodeCall_all_candidates_fail cNone cNoDecodeA cNoDecodeS c5Lookup "0xD" "0xa9059cbb0001"
    { name := "transfer", signature := "transfer(address,uint256)" }
    [{ name := "other", signature := "other(bytes)" }]
    (fun _ h => nomatch h) rfl (fun _ _ => rfl)

/-- Claim C6: when the registry path produces no decode and the directory
returns zero candidates, `decodeCall` returns functionName unknown, the
selector as the signature, and the single-element raw-tail args list. -/
theorem decodeCall_no_candidates_unknown (gA : String → Option Abi)
    (dA : Abi → String → Option (String × List Value))
    (dS : String → String → Option (List Value))
    (lk : String → List FunctionSignature) (t cd : String)
    (hMiss : ∀ abi, gA t = some abi → dA abi cd = none)
    (hLk : lk (cd.take 10) = []) :
    decodeCall gA dA dS lk t cd =
      { target := t, functionName := "unknown", functionSignature := cd.take 10,
        args := [Value.bytes (cd.drop 10)], rawCallData := cd } := by
  cases hg : gA t with
  | none => simp [decodeCall, hg, hLk, fallbackResult]
  | some abi => simp [decodeCall, hg, hMiss abi hg, hLk, fallbackResult]

/-- Witness for C6: with no interface and zero candidates the result is the
unknown DecodedCall whose signature is the selector and whose single arg is
the callData tail. -/
theorem decodeCall_no_candidates_unknown_witness :
    decodeCall cNone cNoDecodeA cNoDecodeS cEmptyLookup "0xE" "0x11223344aabb" =
      { target := "0xE", functionName := "unknown", functionSignature := "0x11223344",
        args := [Value.bytes "aabb"], rawCallData := "0x11223344aabb" } :=
  decodeCall_no_candidates_unknown cNone cNoDecodeA cNoDecodeS cEmptyLookup
    "0xE" "0x11223344aabb" (fun _ h => nomatch h) rfl

/-- Counterexample for C2: with an unknown function (no interface and zero
directory candidates) — the very case the claim calls could-not-decode —
`decodeCall` returns args `[callData without selector]`, a one-element list,
not the empty list the claim requires. -/
theorem decodeCall_args_empty_counterexample :
    decodeCall cNone cNoDecodeA cNoDecodeS cEmptyLookup "0xabc" "0x12345678" =
      { target := "0xabc", functionName := "unknown", functionSignature := "0x12345678",
        args := [Value.bytes ""], rawCallData := "0x12345678" } ∧
    (decodeCall cNone cNoDecodeA cNoDecodeS cEmptyLookup "0xabc" "0x12345678").args ≠ [] := by
  refine ⟨rfl, ?_⟩
  have hne : [Value.bytes ""] ≠ ([] : List Value) := by simp
  exact fun h => hne h

/-- Claim C2 (amended): when resolution could not decode parameters (no usable
registry decode, and no directory candidate decodes — including zero
candidates), args is the non-empty single-element list holding callData
without its first 4 bytes; when a structural decode succeeds (via the registry
interface or via a directory candidate), args is exactly the list of decoded
values, which is empty exactly when that decode produced zero values. -/
theorem decodeCall_args_characterization (gA : String → Option Abi)
    (dA : Abi → String → Option (String × List Value))
    (dS : String → String → Option (List Value))
    (lk : String → List FunctionSignature) (t cd : String) :
    ((∀ abi, gA t = some abi → dA abi cd = none) →
      firstDecodable dS cd (lk (cd.take 10)) = none →
      (decodeCall gA dA dS lk t cd).args = [Value.bytes (cd.drop 10)] ∧
      (decodeCall gA dA dS lk t cd).args ≠ []) ∧
    (∀ abi fnName args, gA t = some abi → dA abi cd = some (fnName, args) →
      (decodeCall gA dA dS lk t cd).args = args) ∧
    (∀ sg vs, (∀ abi, gA t = some abi → dA abi cd = none) →
      firstDecodable dS cd (lk (cd.take 10)) = some (sg, vs) →
      (decodeCall gA dA dS lk t cd).args = vs) := by
  refine ⟨fun hMiss hnone => ?_, fun abi fnName args hg hd => ?_, fun sg vs hMiss hsome => ?_⟩
  · have hres : (decodeCall gA dA dS lk t cd).args = [Value.bytes (cd.drop 10)] := by
      cases hg : gA t with
      | none => simp [decodeCall, hg, fallbackResult_args_none _ _ _ _ _ hnone]
      | some abi =>
          simp [decodeCall, hg, hMiss abi hg, fallbackResult_args_none _ _ _ _ _ hnone]
    refine ⟨hres, ?_⟩
    rw [hres]
    simp
  · simp [decodeCall, hg, hd]
  · cases hg : gA t with
    | none => simp [decodeCall, hg, fallbackResult_args_some _ _ _ _ _ _ _ hsome]
    | some abi =>
        simp [decodeCall, hg, hMiss abi hg, fallbackResult_args_some _ _ _ _ _ _ _ hsome]

/-- Witness for the amended C2: a concrete could-not-decode resolution whose
args is the (non-empty) raw-tail singleton. -/
theorem decodeCall_args_characterization_witness :
    (decodeCall cNone cNoDecodeA cNoDecodeS cEmptyLookup "0xdef" "0xa9059cbb").args
      = [Value.bytes ""] :=
  ((decodeCall_args_characterization cNone cNoDecodeA cNoDecodeS cEmptyLookup
      "0xdef" "0xa9059cbb").1 (fun _ h => nomatch h) rfl).1

/-- Claim C7 (evaluating the code at the failing input): for a callData of
two bytes — shorter than a selector — `decodeCall` does not fail with
MalformedCallData; `slice` silently truncates, the whole callData becomes the
selector, and the call resolves to the unknown DecodedCall. -/
theorem decodeCall_short_callData_eval :
    decodeCall cNone cNoDecodeA cNoDecodeS cEmptyLookup
        "0x0000000000000000000000000000000000000001" "0x1234" =
      { target := "0x0000000000000000000000000000000000000001", functionName := "unknown",
        functionSignature := "0x1234", args := [Value.bytes ""], rawCallData := "0x1234" } := by
  rfl

lemma getContractAbi_first_some (net : String → Option Abi) (s : EtherscanState)
    (a : String) (abi : Abi) (h : net (toLowerCase a) = some abi) :
    ∃ abi2, (getContractAbi net s a).1 = some abi2 := by
  unfold getContractAbi
  cases hc : s.cache.lookup (toLowerCase a) with
  | some abi0 => exact ⟨abi0, by simp [hc]⟩
  | none => exact ⟨abi, by simp [hc, h]⟩

lemma getContractAbi_stable (net : String → Option Abi) (s : EtherscanState)
    (a : String) (abi : Abi) (h : net (toLowerCase a) = some abi) :
    getContractAbi net (getContractAbi net s a).2.1 a
      = ((getContractAbi net s a).1, (getContractAbi net s a).2.1, 0) := by
  unfold getContractAbi
  cases hc : s.cache.lookup (toLowerCase a) with
  | some abi0 => simp [hc]
  | none => simp [hc, h, List.lookup]

lemma lookupSelector_stable (net : String → Option (List FunctionSignature))
    (s : SignatureDecoderState) (sel : String) (sigs : List FunctionSignature)
    (h : net (normalizeSelector sel) = some sigs) :
    lookupSelector net (lookupSelector net s sel).2.1 sel
      = ((lookupSelector net s sel).1, (lookupSelector net s sel).2.1, 0) := by
  unfold lookupSelector
  cases hc : s.cache.lookup (normalizeSelector sel) with
  | some sigs0 => simp [hc]
  | none => simp [hc, h, List.lookup]

lemma decodeCallM_abiSome (netAbi : String → Option Abi)
    (netSig : String → Option (List FunctionSignature))
    (dA : Abi → String → Option (String × List Value))
    (dS : String → String → Option (List Value))
    (s : DecoderState) (t cd : String) (abi : Abi) (fn : String) (args : List Value)
    (ha : (getContractAbi netAbi s.etherscan t).1 = some abi)
    (hd : dA abi cd = some (fn, args)) :
    decodeCallM netAbi netSig dA dS s t cd =
      ({ target := t, functionName := fn, functionSignature := buildSignature abi fn,
         args := args, rawCallData := cd },
       { etherscan := (getContractAbi netAbi s.etherscan t).2.1, sigs := s.sigs },
       (getContractAbi netAbi s.etherscan t).2.2) := by
  simp [decodeCallM, ha, hd]

lemma decodeCallM_abiSome_noDecode (netAbi : String → Option Abi)
    (netSig : String → Option (List FunctionSignature))
    (dA : Abi → String → Option (String × List Value))
    (dS : String → String → Option (List Value))
    (s : DecoderState) (t cd : String) (abi : Abi)
    (ha : (getContractAbi netAbi s.etherscan t).1 = some abi)
    (hd : dA abi cd = none) :
    decodeCallM netAbi netSig dA dS s t cd =
      (fallbackResult dS t cd (cd.take 10) (lookupSelector netSig s.sigs (cd.take 10)).1,
       { etherscan := (getContractAbi netAbi s.etherscan t).2.1,
         sigs := (lookupSelector netSig s.sigs (cd.take 10)).2.1 },
       (getContractAbi netAbi s.etherscan t).2.2
         + (lookupSelector netSig s.sigs (cd.take 10)).2.2) := by
  simp [decodeCallM, ha, hd]

/-- Claim C8: resolving the same (target, callData) pair a second time against
a decoder whose caches were populated by the first resolution (both network
lookups the first resolution may issue succeed, so their results are cached)
returns an identical DecodedCall, leaves the state unchanged, and issues zero
additional gateway requests — the caches answer instead. -/
theorem decodeCallM_idempotent (netAbi : String → Option Abi)
    (netSig : String → Option (List FunctionSignature))
    (dA : Abi → String → Option (String × List Value))
    (dS : String → String → Option (List Value))
    (s0 : DecoderState) (t cd : String) (abi : Abi) (sigs : List FunctionSignature)
    (h1 : netAbi (toLowerCase t) = some abi)
    (h2 : netSig (normalizeSelector (cd.take 10)) = some sigs) :
    decodeCallM netAbi netSig dA dS (decodeCallM netAbi netSig dA dS s0 t cd).2.1 t cd
      = ((decodeCallM netAbi netSig dA dS s0 t cd).1,
         (decodeCallM netAbi netSig dA dS s0 t cd).2.1, 0) := by
  obtain ⟨abi1, ha1⟩ := getContractAbi_first_some netAbi s0.etherscan t abi h1
  have hstab := getContractAbi_stable netAbi s0.etherscan t abi h1
  have ha2 : (getContractAbi netAbi (getContractAbi netAbi s0.etherscan t).2.1 t).1
      = some abi1 := by
    rw [hstab]
    exact ha1
  cases hd : dA abi1 cd with
  | some p =>
    obtain ⟨fn, args⟩ := p
    have e1 := decodeCallM_abiSome netAbi netSig dA dS s0 t cd abi1 fn args ha1 hd
    have e2 := decodeCallM_abiSome netAbi netSig dA dS
      ⟨(getContractAbi netAbi s0.etherscan t).2.1, s0.sigs⟩ t cd abi1 fn args ha2 hd
    simp [e1, e2, hstab]
  | none =>
    have hlstab := lookupSelector_stable netSig s0.sigs (cd.take 10) sigs h2
    have e1 := decodeCallM_abiSome_noDecode netAbi netSig dA dS s0 t cd abi1 ha1 hd
    have e2 := decodeCallM_abiSome_noDecode netAbi netSig dA dS
      ⟨(getContractAbi netAbi s0.etherscan t).2.1,
       (lookupSelector netSig s0.sigs (cd.take 10)).2.1⟩ t cd abi1 ha2 hd
    simp [e1, e2, hstab, hlstab]

/-- Witness for C8: a concrete second resolution that returns the same
DecodedCall with the same state and zero requests. -/
theorem decodeCallM_idempotent_witness :
    decodeCallM c8NetAbi c8NetSig cNoDecodeA cNoDecodeS
        (decodeCallM c8NetAbi c8NetSig cNoDecodeA cNoDecodeS (decoderInit true)
          "0xAB" "0x12345678").2.1 "0xAB" "0x12345678"
      = ((decodeCallM c8NetAbi c8NetSig cNoDecodeA cNoDecodeS (decoderInit true)
            "0xAB" "0x12345678").1,
         (decodeCallM c8NetAbi c8NetSig cNoDecodeA cNoDecodeS (decoderInit true)
            "0xAB" "0x12345678").2.1, 0) :=
  decodeCallM_idempotent c8NetAbi c8NetSig cNoDecodeA cNoDecodeS (decoderInit true)
    "0xAB" "0x12345678" c8Abi c8SigList rfl rfl

lemma throttle_le (last interval now : Nat) (h : last ≤ now) :
    last + interval ≤ throttle last interval now := by
  unfold throttle
  split <;> omega

/-- Counterexample for C9: an outbound ABI lookup (`getContractAbi`, the very
lookup the decoding pipeline uses) issued at time 101 while the last
outbound request of the instance was stamped at time 100 and the configured interval is
250ms — the request goes out 1ms after the previous one, and the throttle
stamp is not even consulted or updated, so the lookup is not paced by the
shared interval. -/
theorem getContractAbi_unthrottled_counterexample :
    (getContractAbiT c9NetAbi c9State "0xA" 101).2.2 = [101] ∧
    (getContractAbiT c9NetAbi c9State "0xA" 101).2.1.lastRequestTime = 100 ∧
    101 - 100 < 250 := by
  refine ⟨rfl, rfl, by norm_num⟩

/-- Claim C9 (amended): the source-code metadata lookups of the gateway
(`getContractName`, and likewise the other callers of `throttle`) are paced —
any outbound request they issue happens no earlier than the stamped last
request time plus the shared minimum inter-request interval — and that
interval is shorter with an API key (250ms) than without one (1000ms); the
ABI lookups (`getContractAbi`), however, are issued immediately without
consulting the pacing gate. -/
theorem etherscan_pacing_amended (netName : String → Option String)
    (net : String → Option Abi) (s : EtherscanState) (a : String) (now t : Nat)
    (hnow : s.lastRequestTime ≤ now)
    (ht : t ∈ (getContractNameT netName s a now).2.2) :
    s.lastRequestTime + s.minRequestInterval ≤ t ∧
    (s.cache.lookup (toLowerCase a) = none → (getContractAbiT net s a now).2.2 = [now]) ∧
    (etherscanInit true).minRequestInterval < (etherscanInit false).minRequestInterval := by
  refine ⟨?_, ?_, by decide⟩
  · cases hc : s.nameCache.lookup (toLowerCase a) with
    | some n => simp [getContractNameT, hc] at ht
    | none =>
      cases hn : netName (toLowerCase a) with
      | some n =>
        simp [getContractNameT, hc, hn] at ht
        rw [ht]
        exact throttle_le s.lastRequestTime s.minRequestInterval now hnow
      | none =>
        simp [getContractNameT, hc, hn] at ht
        rw [ht]
        exact throttle_le s.lastRequestTime s.minRequestInterval now hnow
  · intro hc
    cases hn : net (toLowerCase a) with
    | some abi => simp [getContractAbiT, hc, hn]
    | none => simp [getContractAbiT, hc, hn]

/-- Witness for the amended C9: a name lookup at time 101 with last request
stamped at 100 and interval 250 goes out at 350 (at least 100 + 250), while
an ABI lookup at time 101 goes out at 101. -/
theorem etherscan_pacing_amended_witness :
    (100 : Nat) + 250 ≤ 350 ∧ (getContractAbiT c9NetAbi c9State "0xB" 101).2.2 = [101] := by
  have h := etherscan_pacing_amended c9NetName c9NetAbi c9State "0xB" 101 350
    (by decide) (by decide)
  exact ⟨h.1, h.2.1 rfl⟩

end MD
